import Mathlib

/-!
Verification of the cam6bang coal-plant vision pipeline.

This file gives a shallow embedding, in Lean, of the state machines and pure
computations of the repository — the detector hysteresis logic
(`src/detection/person_detector.py`, `src/detection/coal_detector.py`), the
alarm actuator (`src/plc/alarm_manager.py`), the PLC client write primitives
(`src/plc/plc_client.py`), the frame buffer (`src/camera/frame_buffer.py`),
the capture worker's reconnection backoff (`src/camera/optimized_source.py`)
and ROI scaling (`src/detection/roi_manager.py`) — and proves or refutes the
specification's claims about them.  External effects (PLC socket I/O, the
video backend) are modelled as explicit oracles whose responses are part of
the input, and every write to the wire is recorded in an explicit trace.
-/

namespace Cam6Bang

/-! ## Detector hysteresis (person_detector.py / coal_detector.py)

`PersonDetector._update_alarm_state` and `CoalDetector._update_alarm_state`
share the same counter arithmetic.  The mutable fields of the Python object
that this method touches are `_consecutive_count`, `_no_detection_count`
(`_no_blockage_count` for coal) and `_alarm_state`. -/

structure HystState where
  consecutiveCount : Nat
  noDetectionCount : Nat
  alarmState : Bool
  deriving Repr, DecidableEq

/-- The fresh detector state (`__init__` sets all counters to 0, alarm off). -/
def HystState.init : HystState := ⟨0, 0, false⟩

/-- `PersonDetector._update_alarm_state(person_in_roi)`: one frame of the
person hysteresis.  Returns the new state and `should_trigger_new_alarm`. -/
def personUpdateAlarmState (consecutiveThreshold noDetectionThreshold : Nat)
    (s : HystState) (personInRoi : Bool) : HystState × Bool :=
  if personInRoi then
    let cc := s.consecutiveCount + 1
    if consecutiveThreshold ≤ cc then
      if s.alarmState then
        (⟨0, 0, true⟩, false)
      else
        (⟨0, 0, true⟩, true)
    else
      (⟨cc, 0, s.alarmState⟩, false)
  else
    let nd := s.noDetectionCount + 1
    if noDetectionThreshold ≤ nd then
      (⟨0, nd, false⟩, false)
    else
      (⟨s.consecutiveCount, nd, s.alarmState⟩, false)

/-- `CoalDetector._update_alarm_state(coal_ratio)`: one frame of the coal
hysteresis.  The ratio is a percentage, embedded as an exact rational.
Returns the new state and the `(is_blocked, should_trigger_new_alarm)` pair. -/
def coalUpdateAlarmState (ratioThreshold : ℚ)
    (consecutiveThreshold noBlockageThreshold : Nat)
    (s : HystState) (coalRatio : ℚ) : HystState × Bool × Bool :=
  if ratioThreshold ≤ coalRatio then
    let cc := s.consecutiveCount + 1
    if consecutiveThreshold ≤ cc then
      if s.alarmState then
        (⟨0, 0, true⟩, true, false)
      else
        (⟨0, 0, true⟩, true, true)
    else
      (⟨cc, 0, s.alarmState⟩, false, false)
  else
    let nb := s.noDetectionCount + 1
    if noBlockageThreshold ≤ nb then
      (⟨0, nb, false⟩, false, false)
    else
      (⟨s.consecutiveCount, nb, s.alarmState⟩, false, false)

/-- Run the person hysteresis over a list of per-frame in-ROI flags,
starting from a given state. -/
def runPersonFrom (onTh offTh : Nat) (s : HystState) (frames : List Bool) :
    HystState :=
  frames.foldl (fun st f => (personUpdateAlarmState onTh offTh st f).1) s

/-- Run the person hysteresis from the fresh state. -/
def runPerson (onTh offTh : Nat) (frames : List Bool) : HystState :=
  runPersonFrom onTh offTh HystState.init frames

/-- Run the coal hysteresis over a list of per-frame ratios from a state. -/
def runCoalFrom (ratioTh : ℚ) (onTh offTh : Nat) (s : HystState)
    (frames : List ℚ) : HystState :=
  frames.foldl (fun st r => (coalUpdateAlarmState ratioTh onTh offTh st r).1) s

/-- Run the coal hysteresis from the fresh state. -/
def runCoal (ratioTh : ℚ) (onTh offTh : Nat) (frames : List ℚ) : HystState :=
  runCoalFrom ratioTh onTh offTh HystState.init frames

/-- The per-frame outputs of the person detector over a frame sequence:
for each frame, the `should_alarm` edge flag and the `armed` flag after the
frame is processed. -/
def personOutputs (onTh offTh : Nat) (frames : List Bool) :
    List (Bool × Bool) :=
  (frames.foldl
    (fun (acc : HystState × List (Bool × Bool)) f =>
      let (s', e) := personUpdateAlarmState onTh offTh acc.1 f
      (s', acc.2 ++ [(e, s'.alarmState)]))
    (HystState.init, [])).2

lemma personStep_cc_le (onTh offTh : Nat) (s : HystState) (f : Bool)
    (h : s.consecutiveCount ≤ onTh) :
    ((personUpdateAlarmState onTh offTh s f).1).consecutiveCount ≤ onTh := by
  cases f
  · by_cases h5 : offTh ≤ s.noDetectionCount + 1 <;>
      simp [personUpdateAlarmState, h5, h]
  · by_cases h3 : onTh ≤ s.consecutiveCount + 1
    · by_cases ha : s.alarmState <;> simp [personUpdateAlarmState, h3, ha]
    · simp [personUpdateAlarmState, h3]
      omega

lemma runPersonFrom_cc_le (onTh offTh : Nat) (frames : List Bool) :
    ∀ s : HystState, s.consecutiveCount ≤ onTh →
      (runPersonFrom onTh offTh s frames).consecutiveCount ≤ onTh := by
  induction frames with
  | nil => intro s h; simpa [runPersonFrom] using h
  | cons f rest ih =>
      intro s h
      have hstep := personStep_cc_le onTh offTh s f h
      simpa [runPersonFrom, List.foldl_cons] using
        ih (personUpdateAlarmState onTh offTh s f).1 hstep

lemma coalStep_cc_le (ratioTh : ℚ) (onTh offTh : Nat) (s : HystState) (r : ℚ)
    (h : s.consecutiveCount ≤ onTh) :
    ((coalUpdateAlarmState ratioTh onTh offTh s r).1).consecutiveCount ≤
      onTh := by
  by_cases hr : ratioTh ≤ r
  · by_cases h3 : onTh ≤ s.consecutiveCount + 1
    · by_cases ha : s.alarmState <;> simp [coalUpdateAlarmState, hr, h3, ha]
    · simp [coalUpdateAlarmState, hr, h3]
      omega
  · by_cases h5 : offTh ≤ s.noDetectionCount + 1 <;>
      simp [coalUpdateAlarmState, hr, h5, h]

lemma runCoalFrom_cc_le (ratioTh : ℚ) (onTh offTh : Nat) (frames : List ℚ) :
    ∀ s : HystState, s.consecutiveCount ≤ onTh →
      (runCoalFrom ratioTh onTh offTh s frames).consecutiveCount ≤ onTh := by
  induction frames with
  | nil => intro s h; simpa [runCoalFrom] using h
  | cons r rest ih =>
      intro s h
      have hstep := coalStep_cc_le ratioTh onTh offTh s r h
      simpa [runCoalFrom, List.foldl_cons] using
        ih (coalUpdateAlarmState ratioTh onTh offTh s r).1 hstep

/-! ## Alarm actuator (plc_client interface as seen by alarm_manager.py)

`AlarmManager.set_alarm` drives the PLC through four client primitives:
the `is_connected` property, `health_check()`, `write_bit(...)` and
`reconnect()`.  Within one `set_alarm` call each primitive is consulted at
most a bounded number of times, so one call's worth of client behaviour is
captured by giving the response to each primitive in advance.  Wire
activity is recorded in an explicit trace. -/

inductive AlarmType where
  | person
  | coal
  deriving Repr, DecidableEq

/-- `AlarmConfig`: the `(db_number, byte_offset, bit_offset)` PLC address. -/
structure AlarmConfig where
  dbNumber : Nat
  byteOffset : Nat
  bitOffset : Nat
  deriving Repr, DecidableEq

/-- One `set_alarm` call's worth of PLC-client responses: the value of
`is_connected` at entry, and the results of `health_check()`, the first
`write_bit`, `reconnect()`, and the retried `write_bit`, should each be
invoked. -/
structure PLCBehavior where
  connected : Bool
  healthOk : Bool
  firstWriteOk : Bool
  reconnectOk : Bool
  retryWriteOk : Bool
  deriving Repr, DecidableEq

/-- The observable PLC-side activity of a call: every `write_bit` issued
(with its address and value), and how many `reconnect()` and
`health_check()` calls were made. -/
structure PLCTrace where
  writes : List (AlarmConfig × Bool)
  reconnects : Nat
  healthChecks : Nat
  deriving Repr, DecidableEq

def PLCTrace.empty : PLCTrace := ⟨[], 0, 0⟩

def PLCTrace.append (a b : PLCTrace) : PLCTrace :=
  ⟨a.writes ++ b.writes, a.reconnects + b.reconnects,
   a.healthChecks + b.healthChecks⟩

/-- `AlarmManager._send_to_plc(config, value)`: connectivity pre-check
(`health_check` only when not connected), first `write_bit`, and on failure
one `reconnect` followed by a retried `write_bit` only when the reconnect
succeeded.  Returns the success flag and the trace. -/
def sendToPlc (b : PLCBehavior) (cfg : AlarmConfig) (value : Bool) :
    Bool × PLCTrace :=
  let hc : Nat := if b.connected then 0 else 1
  if ¬ b.connected ∧ ¬ b.healthOk then
    (false, ⟨[], 0, 1⟩)
  else if b.firstWriteOk then
    (true, ⟨[(cfg, value)], 0, hc⟩)
  else if b.reconnectOk then
    (b.retryWriteOk, ⟨[(cfg, value), (cfg, value)], 1, hc⟩)
  else
    (false, ⟨[(cfg, value)], 1, hc⟩)

/-- The mutable state of an `AlarmManager`: the in-memory alarm state and
the configured address for each alarm type (`_alarm_states`,
`_alarm_configs`). -/
structure MgrState where
  personState : Bool
  coalState : Bool
  personCfg : Option AlarmConfig
  coalCfg : Option AlarmConfig
  deriving Repr, DecidableEq

/-- `_alarm_states.get(alarm_type, AlarmState.OFF)`. -/
def MgrState.stored (s : MgrState) : AlarmType → Bool
  | .person => s.personState
  | .coal => s.coalState

/-- `_alarm_configs.get(alarm_type)`. -/
def MgrState.cfg (s : MgrState) : AlarmType → Option AlarmConfig
  | .person => s.personCfg
  | .coal => s.coalCfg

/-- Update the stored state of one alarm type. -/
def MgrState.setStored (s : MgrState) : AlarmType → Bool → MgrState
  | .person, v => { s with personState := v }
  | .coal, v => { s with coalState := v }

/-- `AlarmManager.set_alarm(alarm_type, state)`: no-op success when the
requested state equals the stored state; failure when no address is
configured; otherwise `_send_to_plc`, updating the stored state only on
success.  Returns (result, new manager state, PLC trace). -/
def setAlarm (b : PLCBehavior) (s : MgrState) (t : AlarmType) (v : Bool) :
    Bool × MgrState × PLCTrace :=
  if s.stored t = v then
    (true, s, PLCTrace.empty)
  else
    match s.cfg t with
    | none => (false, s, PLCTrace.empty)
    | some c =>
        let r := sendToPlc b c v
        if r.1 then (true, s.setStored t v, r.2)
        else (false, s, r.2)

/-- A sequence of `set_alarm` calls, each with its own client behaviour;
returns the final manager state and the concatenated PLC trace. -/
def runSetAlarms (s : MgrState) :
    List (PLCBehavior × AlarmType × Bool) → MgrState × PLCTrace
  | [] => (s, PLCTrace.empty)
  | (b, t, v) :: rest =>
      let r := setAlarm b s t v
      let rec' := runSetAlarms r.2.1 rest
      (rec'.1, r.2.2.append rec'.2)

lemma stored_setStored (s : MgrState) (t : AlarmType) (w : Bool) :
    (s.setStored t w).stored t = w := by
  cases t <;> simp [MgrState.setStored, MgrState.stored]

/-! ## PLC client write primitives (plc_client.py)

`PLCClient.write_bit` / `PLCClient.write_byte` guard on the connection
state and then talk to the snap7 device.  The device is modelled as an
oracle giving the outcome of `db_read` (a byte value, or an exception) and
`db_write` (success, or an exception); every `db_read`/`db_write` reaching
the device is recorded. -/

inductive PLCConnState where
  | disconnected
  | connecting
  | connected
  | error
  | reconnecting
  deriving Repr, DecidableEq

/-- The snap7 side of one write call: library availability, the `db_read`
outcome (`none` = exception) and the `db_write` outcome (`false` =
exception). -/
structure PLCDevice where
  snap7Available : Bool
  readResult : Option Nat
  writeOk : Bool
  deriving Repr, DecidableEq

/-- A PLC I/O operation reaching the device. -/
inductive PLCIOp where
  | dbRead (db off : Nat)
  | dbWrite (db off value : Nat)
  deriving Repr, DecidableEq

/-- `PLCClient.is_connected`. -/
def plcIsConnected : PLCConnState → Bool
  | .connected => true
  | _ => false

/-- snap7 `set_bool` on the single byte read back: set or clear one bit. -/
def setBitInByte (b bit : Nat) (v : Bool) : Nat :=
  if v then b ||| 2 ^ bit else b &&& (255 ^^^ 2 ^ bit)

/-- `PLCClient.write_bit(db, byte, bit, value)`: refuse when not connected
or snap7 absent; otherwise read the byte, set the bit, write it back; an
exception from either device call yields failure and the `ERROR` state.
Returns (result, new connection state, device operations performed). -/
def writeBit (dev : PLCDevice) (st : PLCConnState) (db off bit : Nat)
    (v : Bool) : Bool × PLCConnState × List PLCIOp :=
  if ¬ plcIsConnected st ∨ ¬ dev.snap7Available then
    (false, st, [])
  else
    match dev.readResult with
    | none => (false, .error, [.dbRead db off])
    | some b =>
        let nb := setBitInByte b bit v
        if dev.writeOk then
          (true, st, [.dbRead db off, .dbWrite db off nb])
        else
          (false, .error, [.dbRead db off, .dbWrite db off nb])

/-- `PLCClient.write_byte(db, byte, value)`: refuse when not connected;
otherwise write the masked byte; an exception yields failure and the
`ERROR` state. -/
def writeByte (dev : PLCDevice) (st : PLCConnState) (db off value : Nat) :
    Bool × PLCConnState × List PLCIOp :=
  if ¬ plcIsConnected st then
    (false, st, [])
  else if dev.writeOk then
    (true, st, [.dbWrite db off (value &&& 255)])
  else
    (false, .error, [.dbWrite db off (value &&& 255)])

/-! ## Frame buffer (frame_buffer.py)

`FrameBuffer` is a bounded FIFO with drop-oldest `put` and non-blocking
`get`.  The Python `queue.Queue` is full exactly when `maxsize > 0` and
its size has reached `maxsize`.  Frames are opaque payloads. -/

structure FrameData where
  frame : Nat
  timestamp : ℚ
  frameId : Nat
  deriving Repr, DecidableEq

structure FrameBufferState where
  maxsize : Nat
  queue : List FrameData
  frameCounter : Nat
  droppedCount : Nat
  latestFrame : Option FrameData
  deriving Repr, DecidableEq

/-- A fresh `FrameBuffer(maxsize)`. -/
def FrameBufferState.init (maxsize : Nat) : FrameBufferState :=
  ⟨maxsize, [], 0, 0, none⟩

/-- `queue.Queue.full()`: `0 < maxsize ∧ maxsize ≤ qsize`. -/
def FrameBufferState.isFull (s : FrameBufferState) : Prop :=
  0 < s.maxsize ∧ s.maxsize ≤ s.queue.length

instance (s : FrameBufferState) : Decidable s.isFull := by
  unfold FrameBufferState.isFull; infer_instance

/-- `FrameBuffer.put(frame, timestamp)` for a non-`None` frame: bump the
frame counter, drop the oldest element (counting one drop) if the queue is
full, then enqueue; if the queue is somehow still full the frame itself is
dropped and `put` fails.  Returns the new state and the result. -/
def fbPut (s : FrameBufferState) (frameVal : Nat) (ts : ℚ) :
    FrameBufferState × Bool :=
  let counter := s.frameCounter + 1
  let fd : FrameData := ⟨frameVal, ts, counter⟩
  let dropOld :=
    if s.isFull then
      match s.queue with
      | [] => (s.queue, s.droppedCount)
      | _ :: rest => (rest, s.droppedCount + 1)
    else (s.queue, s.droppedCount)
  if 0 < s.maxsize ∧ s.maxsize ≤ dropOld.1.length then
    (⟨s.maxsize, dropOld.1, counter, dropOld.2 + 1, s.latestFrame⟩, false)
  else
    (⟨s.maxsize, dropOld.1 ++ [fd], counter, dropOld.2, some fd⟩, true)

/-- `FrameBuffer.get(timeout=None)`: non-blocking poll of the FIFO head. -/
def fbGet (s : FrameBufferState) : FrameBufferState × Option FrameData :=
  match s.queue with
  | [] => (s, none)
  | fd :: rest => ({ s with queue := rest }, some fd)

inductive FBOp where
  | put (frameVal : Nat) (ts : ℚ)
  | get
  deriving Repr, DecidableEq

/-- Run a sequence of put/poll operations; returns the final buffer state,
the number of puts, and the number of successful (non-empty) polls. -/
def runFB (s : FrameBufferState) : List FBOp → FrameBufferState × Nat × Nat
  | [] => (s, 0, 0)
  | .put f ts :: rest =>
      let r := runFB (fbPut s f ts).1 rest
      (r.1, r.2.1 + 1, r.2.2)
  | .get :: rest =>
      let p := fbGet s
      let r := runFB p.1 rest
      (r.1, r.2.1, r.2.2 + (if p.2.isSome then 1 else 0))

lemma fbPut_balance (s : FrameBufferState) (f : Nat) (ts : ℚ) :
    (fbPut s f ts).1.droppedCount + (fbPut s f ts).1.queue.length =
      s.droppedCount + s.queue.length + 1 := by
  rcases hq : s.queue with _ | ⟨fd0, rest⟩ <;>
    simp only [fbPut, hq] <;>
    split_ifs with h1 h2 h2 <;>
    simp_all [FrameBufferState.isFull, hq] <;>
    omega

lemma runFB_balance (ops : List FBOp) :
    ∀ s : FrameBufferState,
      (runFB s ops).1.droppedCount + (runFB s ops).2.2 +
          (runFB s ops).1.queue.length =
        s.droppedCount + s.queue.length + (runFB s ops).2.1 := by
  induction ops with
  | nil => intro s; simp [runFB]
  | cons op rest ih =>
      intro s
      cases op with
      | put f ts =>
          have hstep := fbPut_balance s f ts
          have := ih (fbPut s f ts).1
          simp only [runFB]
          omega
      | get =>
          have := ih (fbGet s).1
          rcases hq : s.queue with _ | ⟨fd, q⟩ <;>
            simp only [runFB] <;>
            simp [fbGet, hq] at this ⊢ <;>
            omega

/-! ## Coal detector pipeline (coal_detector.py)

`CoalDetector.detect` is embedded as a step function on the detector's
mutable state.  Binary masks at frame resolution are row-major grids of
booleans; the YOLO result is a list of detections each carrying its class
id and its (already resized and binarised) instance mask, or `none` when
the predictor returned nothing usable.  Rasterisation of the ROI polygon
(OpenCV `fillPoly`) is an external primitive and enters as a parameter. -/

/-- A detection as consumed by `_calculate_coal_ratio`: class id plus the
binary instance mask at frame resolution. -/
structure Det where
  cls : Nat
  mask : List (List Bool)
  deriving Repr, DecidableEq

/-- `cv2.bitwise_and` of two binary masks. -/
def maskAnd (a b : List (List Bool)) : List (List Bool) :=
  List.zipWith (List.zipWith Bool.and) a b

/-- `cv2.bitwise_or` of two binary masks. -/
def maskOr (a b : List (List Bool)) : List (List Bool) :=
  List.zipWith (List.zipWith Bool.or) a b

/-- `cv2.countNonZero`. -/
def popcount (m : List (List Bool)) : Nat :=
  (m.map (fun row => row.countP (fun b => b))).sum

/-- `np.zeros((height, width))` as a binary mask. -/
def emptyMask (w h : Nat) : List (List Bool) :=
  List.replicate h (List.replicate w false)

/-- The union of all instance masks whose class id is the coal class
(the accumulation loop of `_calculate_coal_ratio`). -/
def coalUnion (cid : Nat) (dets : List Det) (w h : Nat) :
    List (List Bool) :=
  dets.foldl (fun acc d => if d.cls = cid then maskOr acc d.mask else acc)
    (emptyMask w h)

/-- `CoalDetector._calculate_coal_ratio`: intersect the coal union with
the cached ROI mask, count pixels, and divide by the cached ROI area
(percentage); the ratio is 0 when the cached area is 0. -/
def calculateCoalRatio (cid : Nat) (dets : List Det)
    (roiMask : List (List Bool)) (roiArea : Nat) (w h : Nat) : Nat × ℚ :=
  let coalArea := popcount (maskAnd (coalUnion cid dets w h) roiMask)
  (coalArea,
   if 0 < roiArea then (coalArea : ℚ) / (roiArea : ℚ) * 100 else 0)

/-- The mutable state of a `CoalDetector`: enabled flag, ROI polygon,
hysteresis counters, cached ROI mask with its pixel area and the frame
size it was built for, and the last measured ratio. -/
structure CoalDetState where
  enabled : Bool
  roiPoints : List (ℤ × ℤ)
  hyst : HystState
  roiMask : Option (List (List Bool))
  roiArea : Nat
  frameSize : Option (Nat × Nat)
  lastRatio : ℚ
  deriving Repr, DecidableEq

/-- The per-frame `CoalDetectionResult` fields the state machine
determines (`detected`, `coal_ratio`, `roi_area`, `coal_area`,
`is_blocked`, `consecutive_count`, `should_alarm`). -/
structure CoalResult where
  detected : Bool
  coalRatio : ℚ
  roiArea : Nat
  coalArea : Nat
  isBlocked : Bool
  consecutiveCount : Nat
  shouldAlarm : Bool
  deriving Repr, DecidableEq

/-- `CoalDetector._create_empty_result`: advance the off-streak (possibly
disarming) and report a result whose `coal_ratio` is `_last_coal_ratio`
and whose remaining numeric fields are the dataclass defaults. -/
def coalEmptyResult (noBlockTh : Nat) (s : CoalDetState) :
    CoalDetState × CoalResult :=
  let nb := s.hyst.noDetectionCount + 1
  let hyst' : HystState :=
    if noBlockTh ≤ nb then ⟨0, nb, false⟩
    else ⟨s.hyst.consecutiveCount, nb, s.hyst.alarmState⟩
  (⟨s.enabled, s.roiPoints, hyst', s.roiMask, s.roiArea, s.frameSize,
     s.lastRatio⟩,
   ⟨false, s.lastRatio, 0, 0, false, 0, false⟩)

/-- The condition under which `detect` rebuilds the cached ROI mask:
no mask yet, or the frame size changed. -/
def coalRecreate (s : CoalDetState) (w h : Nat) : Prop :=
  s.roiMask = none ∨ s.frameSize ≠ some (w, h)

instance (s : CoalDetState) (w h : Nat) : Decidable (coalRecreate s w h) :=
  by unfold coalRecreate; infer_instance

/-- `CoalDetector.detect(frame, yolo_result)` on a `w × h` frame:
disabled → empty result; rebuild the ROI mask if needed; empty ROI →
empty result; no usable YOLO masks → empty result; otherwise measure the
ratio, remember it, and run the hysteresis. -/
def coalDetect (rasterize : List (ℤ × ℤ) → Nat → Nat → List (List Bool))
    (cid : Nat) (ratioTh : ℚ) (onTh noBlockTh : Nat)
    (s : CoalDetState) (w h : Nat) (yolo : Option (List Det)) :
    CoalDetState × CoalResult :=
  if s.enabled = true then
    let mask := if coalRecreate s w h then rasterize s.roiPoints w h
      else s.roiMask.getD []
    let area := if coalRecreate s w h
      then popcount (rasterize s.roiPoints w h) else s.roiArea
    let s1 : CoalDetState :=
      if coalRecreate s w h then
        ⟨s.enabled, s.roiPoints, s.hyst, some (rasterize s.roiPoints w h),
         popcount (rasterize s.roiPoints w h), some (w, h), s.lastRatio⟩
      else s
    if area = 0 then coalEmptyResult noBlockTh s1
    else
      match yolo with
      | none => coalEmptyResult noBlockTh s1
      | some dets =>
          let cr := calculateCoalRatio cid dets mask area w h
          let u := coalUpdateAlarmState ratioTh onTh noBlockTh s1.hyst cr.2
          (⟨s1.enabled, s1.roiPoints, u.1, s1.roiMask, s1.roiArea,
             s1.frameSize, cr.2⟩,
           ⟨decide (0 < cr.1), cr.2, area, cr.1, u.2.1,
             u.1.consecutiveCount, u.2.2⟩)
  else coalEmptyResult noBlockTh s

/-- The ROI mask in effect for a frame (rebuilt or cached). -/
def coalRoiMaskFor (rasterize : List (ℤ × ℤ) → Nat → Nat → List (List Bool))
    (s : CoalDetState) (w h : Nat) : List (List Bool) :=
  if coalRecreate s w h then rasterize s.roiPoints w h
  else s.roiMask.getD []

/-- Cache coherence: the cached ROI area is the popcount of the cached
ROI mask.  Holds for a fresh detector (no cached mask) and is maintained
by every `detect` step. -/
def cacheCoherent (s : CoalDetState) : Prop :=
  ∀ m, s.roiMask = some m → s.roiArea = popcount m

/-- A concrete rasterizer used for evaluating the model: the filled
axis-aligned square with corners (1,1) and (2,2) — the `fillPoly` output
for the polygon [(1,1),(2,1),(2,2),(1,2)] — materialised at 4×4, and
empty at any other resolution (at 1×1 the square lies outside the
frame). -/
def exRasterize : List (ℤ × ℤ) → Nat → Nat → List (List Bool) :=
  fun _ w h =>
    if w = 4 ∧ h = 4 then
      [[false, false, false, false],
       [false, true, true, false],
       [false, true, true, false],
       [false, false, false, false]]
    else [[false]]

/-- An all-ones instance mask. -/
def fullMask (w h : Nat) : List (List Bool) :=
  List.replicate h (List.replicate w true)

/-- A fresh coal detector for the square ROI above. -/
def exCoalInit : CoalDetState :=
  ⟨true, [(1, 1), (2, 1), (2, 2), (1, 2)], HystState.init, none, 0, none, 0⟩

/-! ## RTSP capture worker reconnection (optimized_source.py)

`OptimizedVideoSource._capture_loop` / `_handle_disconnection` are
embedded as a step function over the fields they touch: the connection
status, the consecutive-failure counter, the backoff interval, the time
of the last reconnection attempt, and the attempt counter.  Each loop
iteration's inputs — the current time, the read outcome, and the outcome
`_open_source` would have if invoked — are explicit.  Times are exact
rationals. -/

inductive ConnStatus where
  | disconnected
  | connecting
  | connected
  | reconnecting
  | error
  deriving Repr, DecidableEq

inductive SrcType where
  | rtsp
  | file
  deriving Repr, DecidableEq

/-- `MIN_RECONNECT_INTERVAL = 0.5`. -/
def minReconnectInterval : ℚ := 1 / 2

/-- `MAX_RECONNECT_INTERVAL = 10.0`. -/
def maxReconnectInterval : ℚ := 10

/-- `RECONNECT_BACKOFF_MULTIPLIER = 1.5`. -/
def backoffMultiplier : ℚ := 3 / 2

structure CapState where
  status : ConnStatus
  failCount : Nat
  reconnectInterval : ℚ
  lastReconnectTime : ℚ
  reconnectCount : Nat
  deriving Repr, DecidableEq

/-- One capture-loop iteration's environment: the wall-clock time, whether
`cap.read()` succeeded, and whether `_open_source()` would succeed. -/
structure CapInput where
  time : ℚ
  readOk : Bool
  openOk : Bool
  deriving Repr, DecidableEq

/-- The worker state right after a successful `start()`: connected, no
failures, backoff at its minimum, no reconnection attempt yet. -/
def initCapState : CapState :=
  ⟨.connected, 0, minReconnectInterval, 0, 0⟩

/-- `OptimizedVideoSource._handle_disconnection`: for a local file, seek
to the start and return; for a network stream, return untouched if less
than the current backoff has elapsed since the last attempt, otherwise
transition to `reconnecting`, count and timestamp the attempt, and either
reconnect (resetting the backoff to its minimum and clearing the failure
counter, as `_open_source` does on success) or multiply the backoff by
1.5 capped at 10 s.  The second component records whether an attempt was
made (the `RECONNECTING` transition). -/
def handleDisconnection (src : SrcType) (s : CapState) (inp : CapInput) :
    CapState × Bool :=
  match src with
  | .file => (s, false)
  | .rtsp =>
      if inp.time - s.lastReconnectTime < s.reconnectInterval then
        (s, false)
      else if inp.openOk then
        (⟨.connected, 0, minReconnectInterval, inp.time,
           s.reconnectCount + 1⟩, true)
      else
        (⟨.reconnecting, s.failCount,
           min (s.reconnectInterval * backoffMultiplier)
             maxReconnectInterval,
           inp.time, s.reconnectCount + 1⟩, true)

/-- One iteration of `_capture_loop`: a successful read clears the
failure counter and (re)asserts `connected`; a failed read increments it
and invokes `_handle_disconnection` once it reaches 3. -/
def captureStep (src : SrcType) (s : CapState) (inp : CapInput) :
    CapState × Bool :=
  if inp.readOk then
    (⟨.connected, 0, s.reconnectInterval, s.lastReconnectTime,
       s.reconnectCount⟩, false)
  else
    let s1 : CapState := ⟨s.status, s.failCount + 1, s.reconnectInterval,
      s.lastReconnectTime, s.reconnectCount⟩
    if 3 ≤ s1.failCount then handleDisconnection src s1 inp
    else (s1, false)

/-- Run the capture loop over a list of iteration inputs. -/
def runCapture (src : SrcType) (s : CapState) : List CapInput → CapState
  | [] => s
  | inp :: rest => runCapture src (captureStep src s inp).1 rest

lemma handleDisconnection_interval_bounds (src : SrcType) (s : CapState)
    (inp : CapInput)
    (h1 : minReconnectInterval ≤ s.reconnectInterval)
    (h2 : s.reconnectInterval ≤ maxReconnectInterval) :
    minReconnectInterval ≤
        (handleDisconnection src s inp).1.reconnectInterval ∧
      (handleDisconnection src s inp).1.reconnectInterval ≤
        maxReconnectInterval := by
  cases src
  · simp only [handleDisconnection]
    split_ifs with hg ho
    · exact ⟨h1, h2⟩
    · norm_num [minReconnectInterval, maxReconnectInterval]
    · refine ⟨le_min ?_ ?_, min_le_right _ _⟩
      · rw [minReconnectInterval] at h1 ⊢
        rw [backoffMultiplier]
        nlinarith
      · rw [minReconnectInterval, maxReconnectInterval]
        norm_num
  · exact ⟨h1, h2⟩

lemma captureStep_interval_bounds (src : SrcType) (s : CapState)
    (inp : CapInput)
    (h1 : minReconnectInterval ≤ s.reconnectInterval)
    (h2 : s.reconnectInterval ≤ maxReconnectInterval) :
    minReconnectInterval ≤ (captureStep src s inp).1.reconnectInterval ∧
      (captureStep src s inp).1.reconnectInterval ≤
        maxReconnectInterval := by
  simp only [captureStep]
  split_ifs with hr h3
  · exact ⟨h1, h2⟩
  · exact handleDisconnection_interval_bounds src _ inp h1 h2
  · exact ⟨h1, h2⟩

lemma runCapture_interval_bounds (src : SrcType) (inputs : List CapInput) :
    ∀ s : CapState,
      minReconnectInterval ≤ s.reconnectInterval →
      s.reconnectInterval ≤ maxReconnectInterval →
      minReconnectInterval ≤ (runCapture src s inputs).reconnectInterval ∧
        (runCapture src s inputs).reconnectInterval ≤
          maxReconnectInterval := by
  induction inputs with
  | nil => intro s h1 h2; exact ⟨h1, h2⟩
  | cons inp rest ih =>
      intro s h1 h2
      obtain ⟨g1, g2⟩ := captureStep_interval_bounds src s inp h1 h2
      simpa [runCapture] using ih (captureStep src s inp).1 g1 g2

/-! ## ROI scaling (roi_manager.py)

`ROIManager.scale_roi` multiplies each vertex by `target/reference` per
axis and truncates with Python `int()`.  The arithmetic is embedded
exactly over ℚ. -/

/-- Python `int()` applied to a number: truncation toward zero. -/
def pyInt (q : ℚ) : ℤ := if 0 ≤ q then ⌊q⌋ else -⌊-q⌋

/-- `ROIManager.scale_roi(roi_points, target_width, target_height)` for a
manager whose reference resolution is `(refW, refH)`:
`(int(x * target_width / ref_w), int(y * target_height / ref_h))` per
vertex. -/
def scaleRoi (refW refH tW tH : Nat) (pts : List (ℤ × ℤ)) :
    List (ℤ × ℤ) :=
  let sx : ℚ := (tW : ℚ) / (refW : ℚ)
  let sy : ℚ := (tH : ℚ) / (refH : ℚ)
  pts.map (fun p => (pyInt ((p.1 : ℚ) * sx), pyInt ((p.2 : ℚ) * sy)))

lemma pyInt_of_nonneg (q : ℚ) (h : 0 ≤ q) : pyInt q = ⌊q⌋ := by
  simp [pyInt, h]

/-- One coordinate of the scale-then-scale-back round trip: scaling a
nonnegative coordinate from a reference dimension `r` to a target
dimension `t` and back loses between `0` and `⌈r / t⌉` pixels. -/
lemma scale_back_bounds (r t : Nat) (x : ℤ) (hr : 0 < r) (ht : 0 < t)
    (hx : 0 ≤ x) :
    0 ≤ x - pyInt ((pyInt ((x : ℚ) * ((t : ℚ) / r)) : ℚ) * ((r : ℚ) / t)) ∧
    x - pyInt ((pyInt ((x : ℚ) * ((t : ℚ) / r)) : ℚ) * ((r : ℚ) / t)) ≤
      ⌈(r : ℚ) / t⌉ := by
  have hrq : (0 : ℚ) < r := by exact_mod_cast hr
  have htq : (0 : ℚ) < t := by exact_mod_cast ht
  have hxq : (0 : ℚ) ≤ (x : ℚ) := by exact_mod_cast hx
  have hq1nn : 0 ≤ (x : ℚ) * ((t : ℚ) / r) := by positivity
  rw [pyInt_of_nonneg _ hq1nn]
  have hann : (0 : ℚ) ≤ ((⌊(x : ℚ) * ((t : ℚ) / r)⌋ : ℤ) : ℚ) := by
    exact_mod_cast Int.le_floor.mpr (by exact_mod_cast hq1nn)
  have hq2nn : 0 ≤ ((⌊(x : ℚ) * ((t : ℚ) / r)⌋ : ℤ) : ℚ) * ((r : ℚ) / t) :=
    mul_nonneg hann (by positivity)
  rw [pyInt_of_nonneg _ hq2nn]
  have hq2le :
      ((⌊(x : ℚ) * ((t : ℚ) / r)⌋ : ℤ) : ℚ) * ((r : ℚ) / t) ≤ (x : ℚ) := by
    have h1 : ((⌊(x : ℚ) * ((t : ℚ) / r)⌋ : ℤ) : ℚ) ≤
        (x : ℚ) * ((t : ℚ) / r) := Int.floor_le _
    have h2 : ((⌊(x : ℚ) * ((t : ℚ) / r)⌋ : ℤ) : ℚ) * ((r : ℚ) / t) ≤
        (x : ℚ) * ((t : ℚ) / r) * ((r : ℚ) / t) :=
      mul_le_mul_of_nonneg_right h1 (by positivity)
    have h3 : (x : ℚ) * ((t : ℚ) / r) * ((r : ℚ) / t) = (x : ℚ) := by
      field_simp
    linarith
  have hble : ⌊((⌊(x : ℚ) * ((t : ℚ) / r)⌋ : ℤ) : ℚ) * ((r : ℚ) / t)⌋ ≤
      x := by
    have := Int.floor_mono hq2le
    simpa using this
  have hlow : (x : ℚ) - (r : ℚ) / t - 1 <
      ((⌊((⌊(x : ℚ) * ((t : ℚ) / r)⌋ : ℤ) : ℚ) * ((r : ℚ) / t)⌋ : ℤ) :
        ℚ) := by
    have h1 : (x : ℚ) * ((t : ℚ) / r) - 1 <
        ((⌊(x : ℚ) * ((t : ℚ) / r)⌋ : ℤ) : ℚ) := Int.sub_one_lt_floor _
    have h2 : ((x : ℚ) * ((t : ℚ) / r) - 1) * ((r : ℚ) / t) <
        ((⌊(x : ℚ) * ((t : ℚ) / r)⌋ : ℤ) : ℚ) * ((r : ℚ) / t) :=
      mul_lt_mul_of_pos_right h1 (by positivity)
    have h3 : ((x : ℚ) * ((t : ℚ) / r) - 1) * ((r : ℚ) / t) =
        (x : ℚ) - (r : ℚ) / t := by
      field_simp
    have h4 : ((⌊(x : ℚ) * ((t : ℚ) / r)⌋ : ℤ) : ℚ) * ((r : ℚ) / t) - 1 <
        ((⌊((⌊(x : ℚ) * ((t : ℚ) / r)⌋ : ℤ) : ℚ) * ((r : ℚ) / t)⌋ : ℤ) :
          ℚ) := Int.sub_one_lt_floor _
    linarith
  constructor
  · omega
  · have h5 : ((x - ⌊((⌊(x : ℚ) * ((t : ℚ) / r)⌋ : ℤ) : ℚ) *
        ((r : ℚ) / t)⌋ : ℤ) : ℚ) < (r : ℚ) / t + 1 := by
      push_cast
      linarith
    have h6 := Int.lt_ceil.mpr h5
    rw [Int.ceil_add_one] at h6
    omega

end Cam6Bang

namespace Cam6Bang

/-- C2.  With `on_threshold = 3`, `off_threshold = 5`, the in-zone sequence
[no, no, person, person, person, person, no, no, no, no, no] produces
exactly one arm edge (`should_alarm = true`), on frame 5 — the 3rd
consecutive person frame — and exactly one disarm (armed falls to `false`)
on frame 11 — the 5th consecutive no-person frame; no other frame arms or
disarms.  Stated by computing the full per-frame `(should_alarm, armed)`
trace of the detector. -/
theorem person_detector_scenario_c2 :
    personOutputs 3 5
      [false, false, true, true, true, true,
       false, false, false, false, false] =
      [(false, false), (false, false), (false, false), (false, false),
       (true, true), (false, true), (false, true), (false, true),
       (false, true), (false, true), (false, false)] := by
  decide

/-- C3.  For both detectors and every processed frame sequence, the
`consecutive_count` streak counter is at most `consecutive_threshold`
immediately after processing any frame (every prefix of the input is itself
a frame sequence, so the bound holds at every intermediate frame), and the
counter is reset to zero on any step that emits an arm edge — for the
person detector the step's `should_trigger_new_alarm` output, for the coal
detector the second component of its output pair. -/
theorem hysteresis_on_streak_invariant_c3 :
    (∀ (onTh offTh : Nat) (frames : List Bool),
        (runPerson onTh offTh frames).consecutiveCount ≤ onTh) ∧
    (∀ (onTh offTh : Nat) (s : HystState) (f : Bool),
        (personUpdateAlarmState onTh offTh s f).2 = true →
        ((personUpdateAlarmState onTh offTh s f).1).consecutiveCount = 0) ∧
    (∀ (ratioTh : ℚ) (onTh offTh : Nat) (frames : List ℚ),
        (runCoal ratioTh onTh offTh frames).consecutiveCount ≤ onTh) ∧
    (∀ (ratioTh : ℚ) (onTh offTh : Nat) (s : HystState) (r : ℚ),
        (coalUpdateAlarmState ratioTh onTh offTh s r).2.2 = true →
        ((coalUpdateAlarmState ratioTh onTh offTh s r).1).consecutiveCount
          = 0) := by
  refine ⟨?_, ?_, ?_, ?_⟩
  · intro onTh offTh frames
    exact runPersonFrom_cc_le onTh offTh frames HystState.init
      (Nat.zero_le onTh)
  · intro onTh offTh s f h
    cases f
    · by_cases h5 : offTh ≤ s.noDetectionCount + 1 <;>
        simp [personUpdateAlarmState, h5] at h
    · by_cases h3 : onTh ≤ s.consecutiveCount + 1
      · by_cases ha : s.alarmState <;>
          simp [personUpdateAlarmState, h3, ha] at h ⊢
      · simp [personUpdateAlarmState, h3] at h
  · intro ratioTh onTh offTh frames
    exact runCoalFrom_cc_le ratioTh onTh offTh frames HystState.init
      (Nat.zero_le onTh)
  · intro ratioTh onTh offTh s r h
    by_cases hr : ratioTh ≤ r
    · by_cases h3 : onTh ≤ s.consecutiveCount + 1
      · by_cases ha : s.alarmState <;>
          simp [coalUpdateAlarmState, hr, h3, ha] at h ⊢
      · simp [coalUpdateAlarmState, hr, h3] at h
    · by_cases h5 : offTh ≤ s.noDetectionCount + 1 <;>
        simp [coalUpdateAlarmState, hr, h5] at h

/-- Witness for C3: the theorem instantiated at concrete inputs, with its
edge hypotheses discharged by evaluation. -/
theorem hysteresis_on_streak_invariant_c3_witness :
    (runPerson 3 5 [true, true, true, true]).consecutiveCount ≤ 3 ∧
    ((personUpdateAlarmState 3 5 ⟨2, 0, false⟩ true).1).consecutiveCount
      = 0 ∧
    (runCoal 73 5 5 [80, 80]).consecutiveCount ≤ 5 ∧
    ((coalUpdateAlarmState 73 5 5 ⟨4, 0, false⟩ 80).1).consecutiveCount
      = 0 :=
  ⟨hysteresis_on_streak_invariant_c3.1 3 5 [true, true, true, true],
   hysteresis_on_streak_invariant_c3.2.1 3 5 ⟨2, 0, false⟩ true (by decide),
   hysteresis_on_streak_invariant_c3.2.2.1 73 5 5 [80, 80],
   hysteresis_on_streak_invariant_c3.2.2.2 73 5 5 ⟨4, 0, false⟩ 80
     (by decide)⟩

/-- C1 counterexample.  The claim "a PLC wire write is issued if and only
if the requested state differs from the last confirmed in-memory state"
fails on the code at a concrete input: (a) with the PLC link down
(`is_connected` false and `health_check()` failing), a `set_alarm` call
whose requested state differs from the stored state issues no wire write
at all; (b) with a link whose first `write_bit` fails but whose
reconnect-and-retry succeeds, two successive `set_alarm` calls with the
same requested state issue two wire writes, not at most one. -/
theorem alarm_write_iff_change_c1_counterexample :
    (MgrState.stored ⟨false, false, some ⟨300, 6, 0⟩, none⟩ .person
        ≠ true ∧
      (setAlarm ⟨false, false, false, false, false⟩
          ⟨false, false, some ⟨300, 6, 0⟩, none⟩ .person true).2.2.writes
        = []) ∧
    (runSetAlarms ⟨false, false, some ⟨300, 6, 0⟩, none⟩
        [(⟨true, true, false, true, true⟩, .person, true),
         (⟨true, true, false, true, true⟩, .person, true)]).2.writes.length
      = 2 := by
  decide

/-- C1 (amended).  Provided the alarm type has a configured address and
the PLC link is healthy — `is_connected` holds and write attempts succeed —
a wire write is issued by `set_alarm` if and only if the requested state
differs from the stored state; a call whose requested state equals the
stored state returns success without touching the client at all; and two
successive calls with the same requested state issue at most one wire
write. -/
theorem alarm_write_iff_change_c1 :
    ∀ (b : PLCBehavior) (s : MgrState) (t : AlarmType) (v : Bool)
      (c : AlarmConfig),
      b.connected = true → b.firstWriteOk = true → s.cfg t = some c →
      (((setAlarm b s t v).2.2.writes ≠ []) ↔ s.stored t ≠ v) ∧
      (s.stored t = v → setAlarm b s t v = (true, s, PLCTrace.empty)) ∧
      (runSetAlarms s [(b, t, v), (b, t, v)]).2.writes.length ≤ 1 := by
  intro b s t v c hconn hfw hcfg
  by_cases hv : s.stored t = v
  · refine ⟨by simp [setAlarm, hv, PLCTrace.empty],
      fun _ => by simp [setAlarm, hv], ?_⟩
    simp [runSetAlarms, setAlarm, hv, PLCTrace.append, PLCTrace.empty]
  · have hsend : sendToPlc b c v = (true, ⟨[(c, v)], 0, 0⟩) := by
      simp [sendToPlc, hconn, hfw]
    have h1 : setAlarm b s t v =
        (true, s.setStored t v, ⟨[(c, v)], 0, 0⟩) := by
      simp [setAlarm, hv, hcfg, hsend]
    refine ⟨by simp [h1, hv], fun h => absurd h hv, ?_⟩
    simp only [runSetAlarms, h1]
    simp [setAlarm, stored_setStored, PLCTrace.append, PLCTrace.empty]

/-- Witness for C1: the amended theorem applied to a healthy client and a
configured person alarm whose stored state is OFF. -/
theorem alarm_write_iff_change_c1_witness :
    (((setAlarm ⟨true, true, true, true, true⟩
          ⟨false, false, some ⟨300, 6, 0⟩, none⟩ .person true).2.2.writes
        ≠ []) ↔
      MgrState.stored ⟨false, false, some ⟨300, 6, 0⟩, none⟩ .person
        ≠ true) ∧
    (MgrState.stored ⟨false, false, some ⟨300, 6, 0⟩, none⟩ .person = true →
      setAlarm ⟨true, true, true, true, true⟩
          ⟨false, false, some ⟨300, 6, 0⟩, none⟩ .person true =
        (true, ⟨false, false, some ⟨300, 6, 0⟩, none⟩, PLCTrace.empty)) ∧
    (runSetAlarms ⟨false, false, some ⟨300, 6, 0⟩, none⟩
        [(⟨true, true, true, true, true⟩, .person, true),
         (⟨true, true, true, true, true⟩, .person, true)]).2.writes.length
      ≤ 1 :=
  alarm_write_iff_change_c1 ⟨true, true, true, true, true⟩
    ⟨false, false, some ⟨300, 6, 0⟩, none⟩ .person true ⟨300, 6, 0⟩
    rfl rfl rfl

/-- C4 counterexample.  The claim that on a failed write the manager
"retries the write exactly one time (so at most two write attempts)" fails
at a concrete input: when the single requested `reconnect()` fails, the
write is not retried at all — the call makes exactly one write attempt,
requests exactly one reconnect, and returns failure. -/
theorem alarm_retry_once_c4_counterexample :
    MgrState.stored ⟨false, false, some ⟨300, 6, 0⟩, none⟩ .person
      = false ∧
    (setAlarm ⟨true, true, false, false, false⟩
        ⟨false, false, some ⟨300, 6, 0⟩, none⟩ .person
        true).2.2.reconnects = 1 ∧
    (setAlarm ⟨true, true, false, false, false⟩
        ⟨false, false, some ⟨300, 6, 0⟩, none⟩ .person
        true).2.2.writes.length = 1 ∧
    (setAlarm ⟨true, true, false, false, false⟩
        ⟨false, false, some ⟨300, 6, 0⟩, none⟩ .person true).1 = false := by
  decide

/-- C4 (amended).  On a `set_alarm` call whose first PLC write fails
(configured address, state change requested, connectivity pre-check
passing), the manager requests exactly one reconnect and retries the write
exactly once if the reconnect succeeds — and not at all if it fails — so
at most two write attempts are made per call; the call succeeds exactly
when the reconnect and the retried write both succeed; the stored
in-memory state is updated only after the confirmed successful write, and
on a failing call it is unchanged and `set_alarm` returns failure. -/
theorem alarm_retry_once_c4 :
    ∀ (b : PLCBehavior) (s : MgrState) (t : AlarmType) (v : Bool)
      (c : AlarmConfig),
      s.cfg t = some c → s.stored t ≠ v →
      (b.connected = true ∨ b.healthOk = true) → b.firstWriteOk = false →
      (setAlarm b s t v).2.2.reconnects = 1 ∧
      (setAlarm b s t v).2.2.writes.length =
        (if b.reconnectOk then 2 else 1) ∧
      ((setAlarm b s t v).1 = false → (setAlarm b s t v).2.1 = s) ∧
      ((setAlarm b s t v).1 = true ↔
        (b.reconnectOk = true ∧ b.retryWriteOk = true)) ∧
      ((setAlarm b s t v).1 = true →
        ((setAlarm b s t v).2.1).stored t = v) := by
  intro b s t v c hcfg hv hpre hfw
  obtain ⟨bc, bh, bf, br, bw⟩ := b
  simp only at hfw hpre
  subst hfw
  cases bc <;> cases bh <;> cases br <;> cases bw <;>
    simp_all [setAlarm, sendToPlc, hcfg, hv, stored_setStored]

/-- Witness for C4: the amended theorem applied to a connected client
whose first write fails and whose reconnect and retry succeed. -/
theorem alarm_retry_once_c4_witness :
    (setAlarm ⟨true, true, false, true, true⟩
        ⟨false, false, some ⟨300, 6, 0⟩, none⟩ .person
        true).2.2.reconnects = 1 ∧
    (setAlarm ⟨true, true, false, true, true⟩
        ⟨false, false, some ⟨300, 6, 0⟩, none⟩ .person
        true).2.2.writes.length =
      (if (PLCBehavior.mk true true false true true).reconnectOk
        then 2 else 1) ∧
    ((setAlarm ⟨true, true, false, true, true⟩
        ⟨false, false, some ⟨300, 6, 0⟩, none⟩ .person true).1 = false →
      (setAlarm ⟨true, true, false, true, true⟩
          ⟨false, false, some ⟨300, 6, 0⟩, none⟩ .person true).2.1 =
        ⟨false, false, some ⟨300, 6, 0⟩, none⟩) ∧
    ((setAlarm ⟨true, true, false, true, true⟩
        ⟨false, false, some ⟨300, 6, 0⟩, none⟩ .person true).1 = true ↔
      ((PLCBehavior.mk true true false true true).reconnectOk = true ∧
        (PLCBehavior.mk true true false true true).retryWriteOk = true)) ∧
    ((setAlarm ⟨true, true, false, true, true⟩
        ⟨false, false, some ⟨300, 6, 0⟩, none⟩ .person true).1 = true →
      ((setAlarm ⟨true, true, false, true, true⟩
          ⟨false, false, some ⟨300, 6, 0⟩, none⟩ .person
          true).2.1).stored .person = true) :=
  alarm_retry_once_c4 ⟨true, true, false, true, true⟩
    ⟨false, false, some ⟨300, 6, 0⟩, none⟩ .person true ⟨300, 6, 0⟩
    rfl (by decide) (Or.inl rfl) rfl

/-- C9.  A `set_alarm` call for an alarm type with no configured address,
requesting a state different from the stored one, returns failure, issues
no PLC activity at all, and leaves the manager state unchanged (so a
stored state of OFF remains OFF). -/
theorem alarm_no_config_c9 :
    ∀ (b : PLCBehavior) (s : MgrState) (t : AlarmType) (v : Bool),
      s.cfg t = none → s.stored t ≠ v →
      setAlarm b s t v = (false, s, PLCTrace.empty) := by
  intro b s t v hcfg hv
  simp [setAlarm, hv, hcfg]

/-- Witness for C9: a manager with no coal address, stored coal state OFF,
asked to switch the coal alarm ON. -/
theorem alarm_no_config_c9_witness :
    setAlarm ⟨true, true, true, true, true⟩
        ⟨false, false, some ⟨300, 6, 0⟩, none⟩ .coal true =
      (false, ⟨false, false, some ⟨300, 6, 0⟩, none⟩, PLCTrace.empty) :=
  alarm_no_config_c9 ⟨true, true, true, true, true⟩
    ⟨false, false, some ⟨300, 6, 0⟩, none⟩ .coal true rfl (by decide)

/-- C10.  Whenever the client's connection state is not `CONNECTED`,
`PLCClient.write_bit` and `PLCClient.write_byte` return failure without
performing any device I/O — in particular no read-modify-write is
attempted on a disconnected link — and leave the connection state as it
was. -/
theorem plc_write_requires_connected_c10 :
    ∀ (dev : PLCDevice) (st : PLCConnState) (db off bit value : Nat)
      (v : Bool),
      st ≠ PLCConnState.connected →
      writeBit dev st db off bit v = (false, st, []) ∧
      writeByte dev st db off value = (false, st, []) := by
  intro dev st db off bit value v hst
  have h : plcIsConnected st = false := by
    cases st <;> simp_all [plcIsConnected]
  exact ⟨by simp [writeBit, h], by simp [writeByte, h]⟩

/-- Witness for C10: a disconnected client asked to write DB300.DBX6.0 and
DB300.DBB7. -/
theorem plc_write_requires_connected_c10_witness :
    writeBit ⟨true, some 0, true⟩ PLCConnState.disconnected 300 6 0 true =
      (false, PLCConnState.disconnected, []) ∧
    writeByte ⟨true, some 0, true⟩ PLCConnState.disconnected 300 7 1 =
      (false, PLCConnState.disconnected, []) :=
  plc_write_requires_connected_c10 ⟨true, some 0, true⟩
    PLCConnState.disconnected 300 6 0 1 true (by decide)

/-- C8.  For a handoff frame queue of any capacity, after any sequence of
puts (with non-`None` frames) and polls starting from a fresh buffer, the
dropped-frames counter equals puts minus successful polls minus the
current queue size — stated additively as
`dropped + polls + size = puts`; and a put on a full queue removes the
oldest element, appends the new frame, counts exactly one drop, and
succeeds. -/
theorem frame_buffer_drops_c8 :
    (∀ (maxsize : Nat) (ops : List FBOp),
        (runFB (FrameBufferState.init maxsize) ops).1.droppedCount +
            (runFB (FrameBufferState.init maxsize) ops).2.2 +
            (runFB (FrameBufferState.init maxsize) ops).1.queue.length =
          (runFB (FrameBufferState.init maxsize) ops).2.1) ∧
    (∀ (s : FrameBufferState) (f : Nat) (ts : ℚ),
        0 < s.maxsize → s.queue.length = s.maxsize →
        (fbPut s f ts).1.queue =
          s.queue.tail ++ [⟨f, ts, s.frameCounter + 1⟩] ∧
        (fbPut s f ts).1.droppedCount = s.droppedCount + 1 ∧
        (fbPut s f ts).2 = true) := by
  constructor
  · intro maxsize ops
    simpa [FrameBufferState.init] using
      runFB_balance ops (FrameBufferState.init maxsize)
  · intro s f ts hpos hlen
    rcases hq : s.queue with _ | ⟨fd0, rest⟩
    · rw [hq] at hlen
      simp at hlen
      omega
    · have hfull : s.isFull := ⟨hpos, by rw [hlen]⟩
      have hrest : rest.length + 1 = s.maxsize := by
        rw [← hlen, hq, List.length_cons]
      have hno : ¬(0 < s.maxsize ∧ s.maxsize ≤ rest.length) := by omega
      simp [fbPut, hq, hfull, hno]

/-- C5 counterexample.  The claim that the reported coal ratio is 0
whenever the ROI mask has zero pixels fails on the code at a concrete
input: `_create_empty_result` reports `_last_coal_ratio`, not 0.  Frame 1
(4×4, ROI area 4, a coal mask covering the frame) measures ratio 100;
frame 2 arrives at 1×1, the rebuilt ROI mask is empty (area 0), yet the
reported ratio is the stale 100. -/
theorem coal_ratio_c5_counterexample :
    (coalDetect exRasterize 1 100 5 5
        (coalDetect exRasterize 1 100 5 5 exCoalInit 4 4
          (some [⟨1, fullMask 4 4⟩])).1
        1 1 none).1.roiArea = 0 ∧
    (coalDetect exRasterize 1 100 5 5
        (coalDetect exRasterize 1 100 5 5 exCoalInit 4 4
          (some [⟨1, fullMask 4 4⟩])).1
        1 1 none).2.coalRatio = 100 ∧
    (100 : ℚ) ≠ 0 := by
  norm_num [coalDetect, coalEmptyResult, calculateCoalRatio, coalUnion,
    coalRecreate, exRasterize, exCoalInit, fullMask, emptyMask, maskAnd,
    maskOr, popcount, coalUpdateAlarmState, HystState.init,
    List.zipWith, List.countP_cons, List.countP_nil, List.replicate]

/-- C5 (amended).  For every frame processed by an enabled coal detector
whose ROI-area cache is coherent: when the ROI mask in effect has a
positive pixel count and YOLO masks are present, the reported ratio is
exactly `100 * popcount(coal_mask AND roi_mask) / popcount(roi_mask)`
with integer pixel counts and exact rational arithmetic, where
`coal_mask` is the union of the instance masks whose class id is coal;
when the ROI mask in effect has zero pixels the detector reports the
last previously measured ratio (0 for a fresh detector), not
necessarily 0. -/
theorem coal_ratio_formula_c5 :
    ∀ (rasterize : List (ℤ × ℤ) → Nat → Nat → List (List Bool))
      (cid : Nat) (ratioTh : ℚ) (onTh noBlockTh : Nat)
      (s : CoalDetState) (w h : Nat) (dets : List Det),
      s.enabled = true → cacheCoherent s →
      (0 < popcount (coalRoiMaskFor rasterize s w h) →
        (coalDetect rasterize cid ratioTh onTh noBlockTh s w h
            (some dets)).2.coalRatio =
          100 * (popcount (maskAnd (coalUnion cid dets w h)
                  (coalRoiMaskFor rasterize s w h)) : ℚ) /
            (popcount (coalRoiMaskFor rasterize s w h) : ℚ)) ∧
      (popcount (coalRoiMaskFor rasterize s w h) = 0 →
        (coalDetect rasterize cid ratioTh onTh noBlockTh s w h
            (some dets)).2.coalRatio = s.lastRatio) := by
  intro rasterize cid ratioTh onTh noBlockTh s w h dets hen hcc
  by_cases hrec : coalRecreate s w h
  · constructor
    · intro hpos
      rw [coalRoiMaskFor, if_pos hrec] at hpos
      have hne : ¬(popcount (rasterize s.roiPoints w h) = 0) := by omega
      simp [coalDetect, hen, hrec, hne, calculateCoalRatio,
        coalRoiMaskFor, hpos]
      ring
    · intro hzero
      rw [coalRoiMaskFor, if_pos hrec] at hzero
      simp [coalDetect, coalEmptyResult, hen, hrec, hzero]
  · have hmask : ∃ m, s.roiMask = some m := by
      rw [coalRecreate, not_or] at hrec
      rcases hm : s.roiMask with _ | m
      · exact absurd hm hrec.1
      · exact ⟨m, rfl⟩
    obtain ⟨m, hm⟩ := hmask
    have harea : s.roiArea = popcount m := hcc m hm
    have hfor : coalRoiMaskFor rasterize s w h = m := by
      rw [coalRoiMaskFor, if_neg hrec, hm]
      rfl
    constructor
    · intro hpos
      rw [hfor] at hpos
      have hne : ¬(popcount m = 0) := by omega
      simp [coalDetect, hen, hrec, hne, calculateCoalRatio, hm,
        harea, hpos, hfor]
      ring
    · intro hzero
      rw [hfor] at hzero
      have hz : s.roiArea = 0 := by omega
      simp [coalDetect, coalEmptyResult, hen, hrec, hz]

/-- Witness for C5: the amended theorem's measurement branch applied to a
fresh detector at 4×4 with a frame-covering coal mask. -/
theorem coal_ratio_formula_c5_witness :
    (coalDetect exRasterize 1 100 5 5 exCoalInit 4 4
        (some [⟨1, fullMask 4 4⟩])).2.coalRatio =
      100 * (popcount (maskAnd (coalUnion 1 [⟨1, fullMask 4 4⟩] 4 4)
              (coalRoiMaskFor exRasterize exCoalInit 4 4)) : ℚ) /
        (popcount (coalRoiMaskFor exRasterize exCoalInit 4 4) : ℚ) :=
  (coal_ratio_formula_c5 exRasterize 1 100 5 5 exCoalInit 4 4
      [⟨1, fullMask 4 4⟩] rfl
      (by intro m h; simp [cacheCoherent, exCoalInit] at h)).1
    (by decide)

/-- C6 counterexample.  The claim that the worker transitions to
`reconnecting` after 3 consecutive read failures fails on the code at a
concrete run: after a successful reconnection attempt at t = 100, three
consecutive read failures at t = 100.1, 100.2, 100.3 fall inside the
0.5 s backoff guard, so `_handle_disconnection` returns without touching
the status — the worker ends the 3rd consecutive failure still in
`connected`. -/
theorem capture_backoff_c6_counterexample :
    (runCapture .rtsp initCapState
        [⟨998 / 10, false, true⟩, ⟨999 / 10, false, true⟩,
         ⟨100, false, true⟩, ⟨1001 / 10, false, true⟩,
         ⟨1002 / 10, false, true⟩, ⟨1003 / 10, false, true⟩]).status
      = ConnStatus.connected ∧
    (runCapture .rtsp initCapState
        [⟨998 / 10, false, true⟩, ⟨999 / 10, false, true⟩,
         ⟨100, false, true⟩, ⟨1001 / 10, false, true⟩,
         ⟨1002 / 10, false, true⟩, ⟨1003 / 10, false, true⟩]).failCount
      = 3 := by
  norm_num [runCapture, captureStep, handleDisconnection, initCapState,
    minReconnectInterval, maxReconnectInterval, backoffMultiplier]

/-- C6 (amended).  For the RTSP capture worker: the reconnect backoff
starts at 0.5 s and stays within [0.5 s, 10 s] over any run; a
reconnection attempt is made only when at least the current backoff has
elapsed since the previous attempt, and it timestamps itself as the new
previous attempt; a failed attempt multiplies the backoff by 1.5 capped
at 10 s and a successful one resets it to 0.5 s; and the 3rd consecutive
read failure triggers a reconnection attempt — entering `reconnecting` —
exactly when the backoff guard passes (not unconditionally). -/
theorem capture_backoff_c6 :
    initCapState.reconnectInterval = 1 / 2 ∧
    (∀ (src : SrcType) (inputs : List CapInput),
        1 / 2 ≤ (runCapture src initCapState inputs).reconnectInterval ∧
        (runCapture src initCapState inputs).reconnectInterval ≤ 10) ∧
    (∀ (s : CapState) (inp : CapInput),
        (handleDisconnection .rtsp s inp).2 = true →
        s.reconnectInterval ≤ inp.time - s.lastReconnectTime ∧
        (handleDisconnection .rtsp s inp).1.lastReconnectTime = inp.time ∧
        (handleDisconnection .rtsp s inp).1.reconnectInterval =
          (if inp.openOk then 1 / 2
           else min (s.reconnectInterval * (3 / 2)) 10)) ∧
    (∀ (s : CapState) (inp : CapInput),
        inp.readOk = false → s.failCount = 2 →
        s.reconnectInterval ≤ inp.time - s.lastReconnectTime →
        (captureStep .rtsp s inp).2 = true ∧
        (captureStep .rtsp s inp).1.status =
          (if inp.openOk then ConnStatus.connected
           else ConnStatus.reconnecting)) := by
  refine ⟨rfl, ?_, ?_, ?_⟩
  · intro src inputs
    have h := runCapture_interval_bounds src inputs initCapState
      le_rfl (by norm_num [initCapState, minReconnectInterval,
        maxReconnectInterval])
    simpa [minReconnectInterval, maxReconnectInterval] using h
  · intro s inp hatt
    simp only [handleDisconnection] at hatt ⊢
    by_cases hg : inp.time - s.lastReconnectTime < s.reconnectInterval
    · rw [if_pos hg] at hatt
      simp at hatt
    · rw [if_neg hg] at hatt ⊢
      by_cases ho : inp.openOk = true
      · rw [if_pos ho]
        exact ⟨not_lt.mp hg, rfl, by simp [ho, minReconnectInterval]⟩
      · rw [if_neg ho]
        exact ⟨not_lt.mp hg, rfl,
          by simp [ho, backoffMultiplier, maxReconnectInterval]⟩
  · intro s inp hr h2 hg
    have hcond : ¬(inp.time - s.lastReconnectTime < s.reconnectInterval) :=
      not_lt.mpr hg
    simp only [captureStep, hr, Bool.false_eq_true, if_false]
    have h3 : 3 ≤ s.failCount + 1 := by omega
    simp only [h3, if_true, handleDisconnection, hcond, if_false]
    split_ifs with ho <;> simp [ho]

/-- Witness for C6: the invariant over a two-iteration run, the attempt
conditions at a concrete state whose guard has expired, and the
3rd-failure transition at that state. -/
theorem capture_backoff_c6_witness :
    (1 / 2 ≤ (runCapture .rtsp initCapState
        [⟨100, false, true⟩, ⟨101, true, true⟩]).reconnectInterval ∧
      (runCapture .rtsp initCapState
        [⟨100, false, true⟩, ⟨101, true, true⟩]).reconnectInterval
        ≤ 10) ∧
    (CapState.reconnectInterval ⟨.connected, 2, 1 / 2, 100, 1⟩ ≤
        (200 : ℚ) - CapState.lastReconnectTime
          ⟨.connected, 2, 1 / 2, 100, 1⟩ ∧
      (handleDisconnection .rtsp ⟨.connected, 2, 1 / 2, 100, 1⟩
          ⟨200, false, false⟩).1.lastReconnectTime = 200 ∧
      (handleDisconnection .rtsp ⟨.connected, 2, 1 / 2, 100, 1⟩
          ⟨200, false, false⟩).1.reconnectInterval =
        (if (CapInput.mk 200 false false).openOk then 1 / 2
         else min ((1 : ℚ) / 2 * (3 / 2)) 10)) ∧
    ((captureStep .rtsp ⟨.connected, 2, 1 / 2, 100, 1⟩
        ⟨200, false, false⟩).2 = true ∧
      (captureStep .rtsp ⟨.connected, 2, 1 / 2, 100, 1⟩
          ⟨200, false, false⟩).1.status =
        (if (CapInput.mk 200 false false).openOk then ConnStatus.connected
         else ConnStatus.reconnecting)) :=
  ⟨capture_backoff_c6.2.1 .rtsp [⟨100, false, true⟩, ⟨101, true, true⟩],
   capture_backoff_c6.2.2.1 ⟨.connected, 2, 1 / 2, 100, 1⟩
     ⟨200, false, false⟩
     (by norm_num [handleDisconnection, minReconnectInterval,
       backoffMultiplier, maxReconnectInterval]),
   capture_backoff_c6.2.2.2 ⟨.connected, 2, 1 / 2, 100, 1⟩
     ⟨200, false, false⟩ rfl rfl (by norm_num)⟩

/-- C7 counterexample.  The claim that scaling a ROI vertex to a target
resolution and back differs from the original by at most one pixel per
coordinate fails at a concrete input: vertex (5, 5) at reference
1920×1080 scaled to 640×360 and back comes out as (3, 3), two pixels off
in each coordinate. -/
theorem roi_scale_roundtrip_c7_counterexample :
    scaleRoi 640 360 1920 1080 (scaleRoi 1920 1080 640 360 [(5, 5)]) =
      [(3, 3)] ∧ ¬(((5 : ℤ) - 3).natAbs ≤ 1) := by
  constructor
  · norm_num [scaleRoi, pyInt]
  · decide

/-- C7 (amended).  Scaling a ROI vertex with nonnegative coordinates from
the reference resolution to a target resolution and scaling the result
back yields, in each coordinate, a value that is at most the original and
short of it by at most `⌈reference_dimension / target_dimension⌉` pixels;
in particular the round trip differs by at most one pixel per coordinate
whenever the target resolution is at least the reference resolution
(the claimed one-pixel bound does not hold for arbitrary targets). -/
theorem roi_scale_roundtrip_c7 :
    ∀ (refW refH tW tH : Nat) (x y : ℤ),
      0 < refW → 0 < refH → 0 < tW → 0 < tH → 0 ≤ x → 0 ≤ y →
      ∀ p ∈ scaleRoi tW tH refW refH (scaleRoi refW refH tW tH [(x, y)]),
        (0 ≤ x - p.1 ∧ x - p.1 ≤ ⌈(refW : ℚ) / tW⌉ ∧
          0 ≤ y - p.2 ∧ y - p.2 ≤ ⌈(refH : ℚ) / tH⌉) ∧
        (refW ≤ tW → refH ≤ tH →
          (x - p.1).natAbs ≤ 1 ∧ (y - p.2).natAbs ≤ 1) := by
  intro refW refH tW tH x y hrW hrH htW htH hx hy p hp
  simp only [scaleRoi, List.map_cons, List.map_nil,
    List.mem_singleton] at hp
  subst hp
  obtain ⟨hx0, hx1⟩ := scale_back_bounds refW tW x hrW htW hx
  obtain ⟨hy0, hy1⟩ := scale_back_bounds refH tH y hrH htH hy
  refine ⟨⟨hx0, hx1, hy0, hy1⟩, fun h1 h2 => ?_⟩
  have hdiv1 : (refW : ℚ) / (tW : ℚ) ≤ 1 := by
    have htWq : (0 : ℚ) < (tW : ℚ) := by exact_mod_cast htW
    rw [div_le_one htWq]
    exact_mod_cast h1
  have hdiv2 : (refH : ℚ) / (tH : ℚ) ≤ 1 := by
    have htHq : (0 : ℚ) < (tH : ℚ) := by exact_mod_cast htH
    rw [div_le_one htHq]
    exact_mod_cast h2
  have hc1 : ⌈(refW : ℚ) / (tW : ℚ)⌉ ≤ 1 :=
    Int.ceil_le.mpr (by push_cast; exact hdiv1)
  have hc2 : ⌈(refH : ℚ) / (tH : ℚ)⌉ ≤ 1 :=
    Int.ceil_le.mpr (by push_cast; exact hdiv2)
  constructor <;> omega

/-- Witness for C7: the amended theorem applied to reference 1920×1080,
target 1920×1080 and vertex (5, 7), whose round trip is exact. -/
theorem roi_scale_roundtrip_c7_witness :
    (0 ≤ (5 : ℤ) - ((5 : ℤ), (7 : ℤ)).1 ∧
      (5 : ℤ) - ((5 : ℤ), (7 : ℤ)).1 ≤ ⌈(1920 : ℚ) / 1920⌉ ∧
      0 ≤ (7 : ℤ) - ((5 : ℤ), (7 : ℤ)).2 ∧
      (7 : ℤ) - ((5 : ℤ), (7 : ℤ)).2 ≤ ⌈(1080 : ℚ) / 1080⌉) ∧
    (1920 ≤ 1920 → 1080 ≤ 1080 →
      ((5 : ℤ) - ((5 : ℤ), (7 : ℤ)).1).natAbs ≤ 1 ∧
      ((7 : ℤ) - ((5 : ℤ), (7 : ℤ)).2).natAbs ≤ 1) :=
  roi_scale_roundtrip_c7 1920 1080 1920 1080 5 7
    (by decide) (by decide) (by decide) (by decide) (by decide) (by decide)
    ((5 : ℤ), (7 : ℤ)) (by norm_num [scaleRoi, pyInt])

/-- Witness for C8: the theorem applied to a capacity-2 buffer fed three
puts and one poll, and to a concrete full capacity-2 buffer. -/
theorem frame_buffer_drops_c8_witness :
    ((runFB (FrameBufferState.init 2)
          [.put 1 0, .put 2 0, .put 3 0, .get]).1.droppedCount +
        (runFB (FrameBufferState.init 2)
          [.put 1 0, .put 2 0, .put 3 0, .get]).2.2 +
        (runFB (FrameBufferState.init 2)
          [.put 1 0, .put 2 0, .put 3 0, .get]).1.queue.length =
      (runFB (FrameBufferState.init 2)
        [.put 1 0, .put 2 0, .put 3 0, .get]).2.1) ∧
    ((fbPut ⟨2, [⟨1, 0, 1⟩, ⟨2, 0, 2⟩], 2, 0, some ⟨2, 0, 2⟩⟩ 3 0).1.queue =
        ([⟨1, 0, 1⟩, ⟨2, 0, 2⟩] : List FrameData).tail ++ [⟨3, 0, 3⟩] ∧
      (fbPut ⟨2, [⟨1, 0, 1⟩, ⟨2, 0, 2⟩], 2, 0,
          some ⟨2, 0, 2⟩⟩ 3 0).1.droppedCount = 0 + 1 ∧
      (fbPut ⟨2, [⟨1, 0, 1⟩, ⟨2, 0, 2⟩], 2, 0, some ⟨2, 0, 2⟩⟩ 3 0).2 =
        true) :=
  ⟨frame_buffer_drops_c8.1 2 [.put 1 0, .put 2 0, .put 3 0, .get],
   frame_buffer_drops_c8.2 ⟨2, [⟨1, 0, 1⟩, ⟨2, 0, 2⟩], 2, 0, some ⟨2, 0, 2⟩⟩
     3 0 (by decide) (by decide)⟩

end Cam6Bang
